import Mathlib

/-
Verification of the GOAT (LibraryThing) scraper of the a11yhood backend.

The development shallowly embeds src/scrapers/goat.py. Pure helpers of the
scraper become Lean functions. The stateful bulk scrape loop is embedded in
an explicit state-and-exception monad M over an abstract environment
ScrapeEnv that supplies the behaviour of the HTTP client and of the row
store: the Python methods _product_exists, _create_product, _update_product
and the HTTP client live outside the scraper module, so the loop is proved
for every behaviour of these collaborators. XML payloads are modelled as
element trees, the result of xml.etree parsing; a malformed payload is the
none case. Python exceptions are modelled by the Res.exn variant; a Python
try-except block becomes tryCatchM. Request throttling only spends time and
is not modelled.
-/

/-- Outcome of a Python expression: a value, or a raised exception carrying
a message. -/
inductive Res (α : Type) where
  | ok : α → Res α
  | exn : String → Res α
deriving DecidableEq, Repr

/-- State-and-exception monad used to embed the stateful scraper code: a
computation transforms the external world state and either returns a value
or raises. -/
abbrev M (σ : Type) (α : Type) : Type := σ → σ × Res α

/-- Embedding of sequencing two Python statements: an exception in the first
skips the second. -/
def bindM {σ α β : Type} (m : M σ α) (f : α → M σ β) : M σ β := fun s =>
  match m s with
  | (s1, Res.ok a) => f a s1
  | (s1, Res.exn e) => (s1, Res.exn e)

/-- Embedding of an expression that cannot raise. -/
def pureM {σ α : Type} (a : α) : M σ α := fun s => (s, Res.ok a)

/-- Embedding of a Python try-except block catching every Exception. -/
def tryCatchM {σ α : Type} (m : M σ α) (h : String → M σ α) : M σ α := fun s =>
  match m s with
  | (s1, Res.ok a) => (s1, Res.ok a)
  | (s1, Res.exn e) => h e s1

/-- A state-dependent primitive call is itself a computation in M. -/
def liftRes {σ α : Type} (f : σ → σ × Res α) : M σ α := f

/-- Model of an xml.etree element: a tag, optional text content, and the
list of child elements. -/
inductive XMLElem where
  | node (tag : String) (text : Option String) (children : List XMLElem)

/-- Tag of an element. -/
def XMLElem.tag : XMLElem → String
  | .node t _ _ => t

/-- Text directly contained in an element, none when absent. -/
def XMLElem.text : XMLElem → Option String
  | .node _ tx _ => tx

/-- Child elements. -/
def XMLElem.children : XMLElem → List XMLElem
  | .node _ _ c => c

/-- Embedding of Element.find with a plain tag path: the first direct child
with the given tag. -/
def findChild (e : XMLElem) (t : String) : Option XMLElem :=
  e.children.find? (fun c => c.tag == t)

/-- Embedding of Element.findall with a plain tag path: all direct children
with the given tag. -/
def findAllChildren (e : XMLElem) (t : String) : List XMLElem :=
  e.children.filter (fun c => c.tag == t)

/-- Embedding of Element.findtext with a default: the text of the first
matching child, the empty string when that child has no text, the default
when no child matches. -/
def findTextD (e : XMLElem) (t : String) (d : String) : String :=
  match findChild e t with
  | none => d
  | some c =>
    match c.text with
    | none => ""
    | some s => s

/-- Leading-whitespace removal on a character list. -/
def dropWS : List Char → List Char
  | [] => []
  | c :: cs => if c.isWhitespace then dropWS cs else c :: cs

/-- Embedding of the Python strip method on strings: leading and trailing
whitespace removed. -/
def pyStrip (s : String) : String :=
  String.mk ((dropWS ((dropWS s.data).reverse)).reverse)

/-- Truthiness of a Python string. -/
def strTruthy (s : String) : Bool := !s.isEmpty

/-- Truthiness of a Python value that is either None or a string. -/
def optTruthy : Option String → Bool
  | none => false
  | some s => !s.isEmpty

/-- Embedding of the Python expression a or b over optional strings. -/
def pyOrOpt (a b : Option String) : Option String :=
  if optTruthy a then a else b

/-- Intermediate dict produced by GOATScraper._parse_xml_response, with one
field per key the parser stores. -/
structure WorkData where
  work_id : String
  title : String
  author : Option String
  description : Option String
  image_url : Option String
  tags : List String
  language : String
  publication_year : String
  url : String
  last_updated : Option String := none
deriving DecidableEq, Repr

/-- Canonical product record built by GOATScraper._create_product_dict, one
field per key of the Python dict. -/
structure Product where
  name : String
  description : Option String
  source : String
  url : Option String
  image : Option String
  type : String
  external_id : Option String
  tags : List String
  scraped_at : Option String
  source_last_updated : Option String
deriving DecidableEq, Repr

/-- Embedding of the description scan of _parse_xml_response: the first
description child whose text strips to a non-empty string. -/
def firstDescription : List XMLElem → Option String
  | [] => none
  | d :: rest =>
    match d.text with
    | some tx => if (pyStrip tx).isEmpty then firstDescription rest else some (pyStrip tx)
    | none => firstDescription rest

/-- Embedding of the cover scan of _parse_xml_response: the cover image URL
built from the first cover child with a non-empty id. -/
def firstCover : List XMLElem → Option String
  | [] => none
  | c :: rest =>
    let cid := pyStrip (findTextD c "id" "")
    if cid.isEmpty then firstCover rest
    else some ("https://covers.librarything.com/pics/" ++ cid ++ "l")

/-- Embedding of the tag scan of _parse_xml_response: names of the tag
children of populartags whose name strips to a non-empty string. -/
def collectTags : Option XMLElem → List String
  | none => []
  | some pt =>
    (findAllChildren pt "tag").filterMap (fun te =>
      let n := pyStrip (findTextD te "name" "")
      if n.isEmpty then none else some n)

/-- Embedding of GOATScraper._parse_xml_response. The argument body is the
outcome of xml.etree fromstring on the response text: none models a parse
error, which the Python code catches and turns into None. -/
def parse_xml_response (body : Option XMLElem) (work_id : String) : Option WorkData :=
  match body with
  | none => none
  | some root =>
    match findChild root "error" with
    | some _ => none
    | none =>
      match findChild root "work" with
      | none => none
      | some work =>
        let title := pyStrip (findTextD work "title" "")
        if title.isEmpty then none
        else
          let author : Option String :=
            match findChild work "author" with
            | none => none
            | some a =>
              let n := pyStrip (findTextD a "name" "")
              some (if n.isEmpty then pyStrip (findTextD a "authorname" "") else n)
          some {
            work_id := work_id,
            title := title,
            author := author,
            description := firstDescription (findAllChildren work "description"),
            image_url := firstCover (findAllChildren work "cover"),
            tags := collectTags (findChild work "populartags"),
            language := pyStrip (findTextD work "language" ""),
            publication_year := pyStrip (findTextD work "publicationyear" ""),
            url := "https://www.librarything.com/work/" ++ work_id }

/-- Embedding of GOATScraper._create_product_dict. The now argument stands
for the timestamp datetime.now takes at normalization time. -/
def create_product_dict (now : String) (work_data : WorkData) (source_url : Option String) : Product :=
  let author := work_data.author
  let d0 := work_data.description
  let d1 : Option String :=
    if optTruthy author && optTruthy d0 then
      some ("By " ++ author.getD "" ++ "\n\n" ++ d0.getD "")
    else if optTruthy author then
      some ("By " ++ author.getD "")
    else d0
  let d2 : Option String :=
    if strTruthy work_data.publication_year then
      if optTruthy d1 then
        some (d1.getD "" ++ "\n\nPublished: " ++ work_data.publication_year)
      else
        some ("Published: " ++ work_data.publication_year)
    else d1
  let d3 : Option String :=
    if strTruthy work_data.language then
      if optTruthy d2 then
        some (d2.getD "" ++ "\nLanguage: " ++ work_data.language)
      else
        some ("Language: " ++ work_data.language)
    else d2
  { name := work_data.title,
    description := d3,
    source := "GOAT",
    url := pyOrOpt source_url (some work_data.url),
    image := work_data.image_url,
    type := "Book",
    external_id := some work_data.work_id,
    tags := work_data.tags,
    scraped_at := some now,
    source_last_updated := work_data.last_updated }

/-- Embedding of GOATScraper.get_source_name. -/
def get_source_name : String := "goat"

/-- Literal match of a pattern character list at the head of a text. -/
def matchLit : List Char → List Char → Bool
  | [], _ => true
  | _ :: _, [] => false
  | p :: ps, c :: cs => p == c && matchLit ps cs

/-- Maximal run of decimal digits at the head of a text, the greedy match of
the digit-class-plus regex piece. -/
def leadingDigits : List Char → List Char
  | [] => []
  | c :: cs => if c.isDigit then c :: leadingDigits cs else []

/-- Decides whether the regex slash-work-slash-digits matches the text at
offset i. -/
def workSegAt (l : List Char) (i : Nat) : Bool :=
  matchLit "/work/".toList (l.drop i) && !(leadingDigits (l.drop (i + 6))).isEmpty

/-- Left-to-right scan of re.search for the work-id pattern: the earliest
match position wins and the digit group is greedy. -/
def extractWorkIdAux : List Char → Option String
  | [] => none
  | c :: cs =>
    if matchLit "/work/".toList (c :: cs) && !(leadingDigits ((c :: cs).drop 6)).isEmpty then
      some (String.mk (leadingDigits ((c :: cs).drop 6)))
    else extractWorkIdAux cs

/-- Embedding of GOATScraper._extract_work_id. -/
def extract_work_id (url : String) : Option String :=
  extractWorkIdAux url.toList

/-- Embedding of the Python startswith method on strings. -/
def pyStartsWith (s pre : String) : Bool :=
  matchLit pre.toList s.toList

/-- Run report dict built by GOATScraper.scrape, one field per key. -/
structure RunReport where
  source : String := "GOAT"
  products_found : Nat := 0
  products_added : Nat := 0
  products_updated : Nat := 0
  duration_seconds : Nat := 0
  status : String := "success"
  message : Option String := none
  error_message : Option String := none
deriving DecidableEq, Repr

/-- Initial results dict of GOATScraper.scrape. -/
def initReport : RunReport := {}

/-- Message set when the API key is not configured. -/
def msgNoKey : String :=
  "LibraryThing API key not configured. Cannot scrape without API key. Configure in oauth_configs table with platform=goat"

/-- Message set when no targets resolve. -/
def msgNoTargets : String :=
  "No GOAT targets configured. Provide LibraryThing URLs or work IDs via urls argument or scraper_search_terms (platform=goat)."

/-- Message set when the loop found zero works. -/
def msgBlocked : String :=
  "No works could be fetched. LibraryThing API is likely blocked by CloudFlare. Use scrape_url for individual books instead."

/-- Message set when the loop found at least one work. -/
def msgScraped (n : Nat) : String :=
  "Scraped " ++ toString n ++ " works (API may have limited access)"

/-- Report returned by the outermost except clause of GOATScraper.scrape. -/
def goatErrorReport (e : String) (dur : Nat) : RunReport :=
  { source := "GOAT",
    products_found := 0,
    products_added := 0,
    products_updated := 0,
    duration_seconds := dur,
    status := "error",
    message := none,
    error_message := some ("Scraper error: " ++ e ++ ". Note: LibraryThing API may be blocked by CloudFlare.") }

/-- Abstract behaviour of the collaborators of the scraper over a world
state: the HTTP client response per work id as a status code and parsed
body, the scraper_search_terms rows, and the row-store operations of the
base class. Each call may advance the state and may raise. The now and
duration fields abstract the wall clock. -/
structure ScrapeEnv (σ : Type) where
  fetchResp : σ → String → σ × Res (Nat × Option XMLElem)
  loadTerms : σ → σ × Res (List (Option String))
  productExists : σ → String → σ × Res (Option Nat)
  createProduct : σ → Product → σ × Res Bool
  updateProduct : σ → Nat → Product → σ × Res Bool
  now : String
  duration : Nat

/-- Truthiness test the Python code applies to self.api_key. -/
def keyFalsy : Option String → Bool
  | none => true
  | some s => s.isEmpty

/-- Embedding of GOATScraper._fetch_work_details: a missing key, a raising
client call, a non-200 status and an unparsable or unusable body all yield
None; every exception is caught. -/
def fetchWorkDetails {σ : Type} (env : ScrapeEnv σ) (api_key : Option String) (work_id : String) :
    M σ (Option WorkData) :=
  tryCatchM
    (if keyFalsy api_key then pureM none
     else
       bindM (liftRes (fun s => env.fetchResp s work_id)) (fun resp =>
         if resp.1 ≠ 200 then pureM none
         else pureM (parse_xml_response resp.2 work_id)))
    (fun _ => pureM none)

/-- Work id a loop iteration resolves from a target string, including the
falsiness check that skips an empty id. -/
def targetWorkId (t : String) : Option String :=
  let wid := if pyStartsWith t "http" then extract_work_id t else some (pyStrip t)
  match wid with
  | none => none
  | some w => if w.isEmpty then none else some w

/-- Source URL a loop iteration associates with a target string. -/
def targetSourceUrl (t : String) : Option String :=
  if pyStartsWith t "http" then some t else none

/-- Canonical URL the loop checks existence by: the url of the payload when
truthy, otherwise the work URL rebuilt from the work id. -/
def productUrl (payload : Product) (work_id : String) : String :=
  match payload.url with
  | some u => if u.isEmpty then "https://www.librarything.com/work/" ++ work_id else u
  | none => "https://www.librarything.com/work/" ++ work_id

/-- Existence-check and create-or-update step of one loop iteration, giving
the deltas to products_found, products_added and products_updated. -/
def persistTarget {σ : Type} (env : ScrapeEnv σ) (payload : Product) (purl : String) :
    M σ (Nat × Nat × Nat) :=
  bindM (liftRes (fun s => env.productExists s purl)) (fun ex =>
    match ex with
    | some pid =>
      bindM (liftRes (fun s => env.updateProduct s pid payload)) (fun ok =>
        pureM (1, 0, if ok then 1 else 0))
    | none =>
      bindM (liftRes (fun s => env.createProduct s payload)) (fun ok =>
        pureM (1, if ok then 1 else 0, 0)))

/-- Body of one iteration of the target loop of GOATScraper.scrape, before
the per-target exception handler is applied. -/
def processTarget {σ : Type} (env : ScrapeEnv σ) (api_key : Option String) (t : String) :
    M σ (Nat × Nat × Nat) :=
  match targetWorkId t with
  | none => pureM (0, 0, 0)
  | some wid =>
    bindM (fetchWorkDetails env api_key wid) (fun wd? =>
      match wd? with
      | none => pureM (0, 0, 0)
      | some wd =>
        let payload := create_product_dict env.now wd (targetSourceUrl t)
        persistTarget env payload (productUrl payload wid))

/-- Application of the per-iteration counter deltas to the results dict. -/
def applyDelta (r : RunReport) (d : Nat × Nat × Nat) : RunReport :=
  { r with
    products_found := r.products_found + d.1,
    products_added := r.products_added + d.2.1,
    products_updated := r.products_updated + d.2.2 }

/-- Embedding of the target loop of GOATScraper.scrape: the test-mode cap
breaks out, and exceptions of one iteration are caught so the loop
continues with zero deltas. -/
def scrapeLoop {σ : Type} (env : ScrapeEnv σ) (api_key : Option String)
    (test_mode : Bool) (test_limit : Nat) :
    List String → Nat → RunReport → M σ RunReport
  | [], _, r => pureM r
  | t :: rest, i, r =>
    if test_mode && decide (test_limit ≤ i) then pureM r
    else
      bindM (tryCatchM (processTarget env api_key t) (fun _ => pureM (0, 0, 0)))
        (fun d => scrapeLoop env api_key test_mode test_limit rest (i + 1) (applyDelta r d))

/-- Truthiness filter the list comprehension applies to search_term
values. -/
def truthyFilter (rows : List (Option String)) : List String :=
  rows.filterMap (fun o =>
    match o with
    | some s => if s.isEmpty then none else some s
    | none => none)

/-- Embedding of the scraper_search_terms load: a raising query is caught
and leaves the target list empty. -/
def loadDbTargets {σ : Type} (env : ScrapeEnv σ) : M σ (List String) :=
  tryCatchM
    (bindM (liftRes env.loadTerms) (fun rows => pureM (truthyFilter rows)))
    (fun _ => pureM [])

/-- Target-list resolution of GOATScraper.scrape: a truthy urls argument
takes precedence, otherwise the persisted search terms are loaded. -/
def resolveTargets {σ : Type} (env : ScrapeEnv σ) (urls : Option (List String)) :
    M σ (List String) :=
  match urls with
  | some us => if us.isEmpty then loadDbTargets env else pureM us
  | none => loadDbTargets env

/-- Finalization after the loop: the duration is recorded and the status
and message are derived from products_found. -/
def finalizeReport (dur : Nat) (r : RunReport) : RunReport :=
  let r1 := { r with duration_seconds := dur }
  if r1.products_found == 0 then
    { r1 with status := "warning", message := some msgBlocked }
  else
    { r1 with message := some (msgScraped r1.products_found) }

/-- Body of the outermost try block of GOATScraper.scrape. -/
def scrapeBody {σ : Type} (env : ScrapeEnv σ) (api_key : Option String)
    (test_mode : Bool) (test_limit : Nat) (urls : Option (List String)) : M σ RunReport :=
  if keyFalsy api_key then
    pureM { initReport with status := "warning", message := some msgNoKey }
  else
    bindM (resolveTargets env urls) (fun ts =>
      if ts.isEmpty then
        pureM { initReport with
                status := "warning"
                message := some msgNoTargets
                duration_seconds := env.duration }
      else
        bindM (scrapeLoop env api_key test_mode test_limit ts 0 initReport) (fun r =>
          pureM (finalizeReport env.duration r)))

/-- Embedding of GOATScraper.scrape: the body runs under the outermost
exception handler, which turns any escaping exception into an error
report. -/
def scrape {σ : Type} (env : ScrapeEnv σ) (api_key : Option String)
    (test_mode : Bool) (test_limit : Nat) (urls : Option (List String)) : M σ RunReport :=
  tryCatchM (scrapeBody env api_key test_mode test_limit urls)
    (fun e => pureM (goatErrorReport e env.duration))

/-- Targets the search-term load yields, as a pure projection used in
theorem statements: the empty list when the query raises. -/
def resolvedDbTargets {σ : Type} (env : ScrapeEnv σ) (s : σ) : List String :=
  match env.loadTerms s with
  | (_, Res.ok rows) => truthyFilter rows
  | (_, Res.exn _) => []

/-- Truthiness test the Python code applies to the urls argument. -/
def urlsFalsy : Option (List String) → Bool
  | none => true
  | some us => us.isEmpty

/-- Modelled from the spec: one row of the products table as the row store
keeps it, an identifier together with the persisted canonical record. The
row store itself, with _product_exists, _create_product and
_update_product, lives in base_scraper.py, which is not part of the
sources at hand; spec section 4.1 specifies lookup of an existing product
by canonical url, insert when absent, and update of the matched row. -/
structure StoreRow where
  id : Nat
  product : Product
deriving DecidableEq, Repr

/-- Modelled from the spec: the state of the products table, rows plus a
fresh-identifier counter. -/
structure Store where
  rows : List StoreRow
  nextId : Nat
deriving DecidableEq, Repr

/-- Modelled from the spec: the empty products table. -/
def emptyStore : Store := { rows := [], nextId := 0 }

/-- Modelled from the spec: the existence query of _product_exists, the
identifier of the first row whose url equals the canonical url. -/
def lookupByUrl (st : Store) (url : String) : Option Nat :=
  (st.rows.find? (fun r => r.product.url == some url)).map (fun r => r.id)

/-- Modelled from the spec: the insert issued by _create_product, a new row
under a fresh identifier. -/
def insertRow (st : Store) (p : Product) : Store :=
  { rows := st.rows ++ [{ id := st.nextId, product := p }], nextId := st.nextId + 1 }

/-- Modelled from the spec: the update issued by _update_product, replacing
the persisted record of every row carrying the given identifier. -/
def updateRow (st : Store) (pid : Nat) (p : Product) : Store :=
  { st with rows := st.rows.map (fun r => if r.id == pid then { id := r.id, product := p } else r) }

/-- Environment whose row-store operations act on a Store state by the
spec-modelled semantics and always succeed, and whose HTTP responses are a
fixed function of the work id, the unchanged-upstream hypothesis of the
idempotence property. -/
def storeEnv (respOf : String → Res (Nat × Option XMLElem)) (terms : List (Option String))
    (now : String) (dur : Nat) : ScrapeEnv Store := {
  fetchResp := fun st wid => (st, respOf wid),
  loadTerms := fun st => (st, Res.ok terms),
  productExists := fun st url => (st, Res.ok (lookupByUrl st url)),
  createProduct := fun st p => (insertRow st p, Res.ok true),
  updateProduct := fun st pid p => (updateRow st pid p, Res.ok true),
  now := now,
  duration := dur }

/-- Pure value of _fetch_work_details under a stateless response function. -/
def fetchPure (respOf : String → Res (Nat × Option XMLElem)) (api_key : Option String)
    (work_id : String) : Option WorkData :=
  if keyFalsy api_key then none
  else
    match respOf work_id with
    | Res.exn _ => none
    | Res.ok (code, body) => if code ≠ 200 then none else parse_xml_response body work_id

/-- Outcome one target determines under a stateless response function: none
when the iteration skips it, otherwise the canonical url and payload it
persists. -/
def targetOutcome (respOf : String → Res (Nat × Option XMLElem)) (api_key : Option String)
    (now : String) (t : String) : Option (String × Product) :=
  match targetWorkId t with
  | none => none
  | some wid =>
    match fetchPure respOf api_key wid with
    | none => none
    | some wd =>
      let p := create_product_dict now wd (targetSourceUrl t)
      some (productUrl p wid, p)

/-- Number of targets of a list that are successfully fetched and
normalized under a stateless response function. -/
def countSuccessful (respOf : String → Res (Nat × Option XMLElem)) (api_key : Option String)
    (now : String) (ts : List String) : Nat :=
  (ts.filter (fun t => (targetOutcome respOf api_key now t).isSome)).length

/-- Canonical urls of the successfully fetched targets of a list. -/
def successfulUrls (respOf : String → Res (Nat × Option XMLElem)) (api_key : Option String)
    (now : String) (ts : List String) : List String :=
  ts.filterMap (fun t => (targetOutcome respOf api_key now t).map (fun x => x.1))

/-- A canonical url is present in the store when some row carries it. -/
def hasUrl (st : Store) (url : String) : Prop :=
  ∃ r ∈ st.rows, r.product.url = some url

/-- Well-formedness of the store: row identifiers are pairwise distinct and
below the fresh counter. -/
def WFStore (st : Store) : Prop :=
  st.rows.Pairwise (fun a b => a.id ≠ b.id) ∧ ∀ r ∈ st.rows, r.id < st.nextId

/-- Applying zero deltas leaves the results dict unchanged. -/
lemma applyDelta_zero (r : RunReport) : applyDelta r (0, 0, 0) = r := by
  simp [applyDelta]

/-- Variant of the zero-delta lemma stated over the zero of the product
monoid, the normal form simp produces. -/
lemma applyDelta_zero' (r : RunReport) : applyDelta r 0 = r := by
  simp [applyDelta]

/-- Counter deltas do not touch status, messages, source or duration. -/
lemma applyDelta_fields (r : RunReport) (d : Nat × Nat × Nat) :
    (applyDelta r d).status = r.status ∧ (applyDelta r d).message = r.message ∧
    (applyDelta r d).error_message = r.error_message ∧ (applyDelta r d).source = r.source ∧
    (applyDelta r d).duration_seconds = r.duration_seconds := by
  simp [applyDelta]

/-- The target loop never raises and only the counters of the results dict
change. -/
lemma scrapeLoop_ok {σ : Type} (env : ScrapeEnv σ) (key : Option String) (tm : Bool) (tl : Nat) :
    ∀ (ts : List String) (i : Nat) (r : RunReport) (s : σ),
    ∃ s1 r1, scrapeLoop env key tm tl ts i r s = (s1, Res.ok r1) ∧
      r1.status = r.status ∧ r1.message = r.message ∧ r1.error_message = r.error_message ∧
      r1.source = r.source ∧ r1.duration_seconds = r.duration_seconds := by
  intro ts
  induction ts with
  | nil =>
    intro i r s
    exact ⟨s, r, rfl, rfl, rfl, rfl, rfl, rfl⟩
  | cons t rest ih =>
    intro i r s
    by_cases hb : (tm && decide (tl ≤ i)) = true
    · refine ⟨s, r, ?_, rfl, rfl, rfl, rfl, rfl⟩
      simp [scrapeLoop, hb, pureM]
    · rcases hpt : processTarget env key t s with ⟨s0, q⟩
      cases q with
      | ok d =>
        rcases ih (i + 1) (applyDelta r d) s0 with ⟨s1, r1, heq, h2, h3, h4, h5, h6⟩
        refine ⟨s1, r1, ?_, ?_, ?_, ?_, ?_, ?_⟩
        · simp only [scrapeLoop, Bool.not_eq_true] at hb ⊢
          rw [hb]
          simpa [bindM, tryCatchM, hpt] using heq
        · rw [h2, (applyDelta_fields r d).1]
        · rw [h3, (applyDelta_fields r d).2.1]
        · rw [h4, (applyDelta_fields r d).2.2.1]
        · rw [h5, (applyDelta_fields r d).2.2.2.1]
        · rw [h6, (applyDelta_fields r d).2.2.2.2]
      | exn e =>
        rcases ih (i + 1) (applyDelta r (0, 0, 0)) s0 with ⟨s1, r1, heq, h2, h3, h4, h5, h6⟩
        refine ⟨s1, r1, ?_, ?_, ?_, ?_, ?_, ?_⟩
        · simp only [scrapeLoop, Bool.not_eq_true] at hb ⊢
          rw [hb]
          simpa [bindM, tryCatchM, hpt, pureM] using heq
        · rw [h2, (applyDelta_fields r (0, 0, 0)).1]
        · rw [h3, (applyDelta_fields r (0, 0, 0)).2.1]
        · rw [h4, (applyDelta_fields r (0, 0, 0)).2.2.1]
        · rw [h5, (applyDelta_fields r (0, 0, 0)).2.2.2.1]
        · rw [h6, (applyDelta_fields r (0, 0, 0)).2.2.2.2]

/-- The search-term load never raises and yields exactly the resolved
targets. -/
lemma loadDbTargets_eq {σ : Type} (env : ScrapeEnv σ) (s : σ) :
    ∃ s1, loadDbTargets env s = (s1, Res.ok (resolvedDbTargets env s)) := by
  rcases hl : env.loadTerms s with ⟨s1, q⟩
  cases q with
  | ok rows =>
    exact ⟨s1, by simp [loadDbTargets, tryCatchM, bindM, liftRes, pureM, hl,
      resolvedDbTargets]⟩
  | exn e =>
    exact ⟨s1, by simp [loadDbTargets, tryCatchM, bindM, liftRes, pureM, hl,
      resolvedDbTargets]⟩

/-- Target resolution never raises. -/
lemma resolveTargets_ok {σ : Type} (env : ScrapeEnv σ) (urls : Option (List String)) (s : σ) :
    ∃ s1 ts, resolveTargets env urls s = (s1, Res.ok ts) := by
  cases urls with
  | none =>
    rcases loadDbTargets_eq env s with ⟨s1, h⟩
    exact ⟨s1, resolvedDbTargets env s, h⟩
  | some us =>
    by_cases he : us.isEmpty
    · rcases loadDbTargets_eq env s with ⟨s1, h⟩
      exact ⟨s1, resolvedDbTargets env s, by simpa [resolveTargets, he] using h⟩
    · exact ⟨s, us, by simp [resolveTargets, he, pureM]⟩

/-- The body of the outermost try block never raises, and its report
carries status success exactly when at least one product was found and
status warning exactly when zero were found. -/
lemma scrapeBody_ok {σ : Type} (env : ScrapeEnv σ) (key : Option String) (tm : Bool) (tl : Nat)
    (urls : Option (List String)) (s : σ) :
    ∃ s1 r, scrapeBody env key tm tl urls s = (s1, Res.ok r) ∧
      (r.status = "success" ↔ 1 ≤ r.products_found) ∧
      (r.status = "warning" ↔ r.products_found = 0) := by
  have hsw : ("success" : String) ≠ "warning" := by decide
  by_cases hkey : keyFalsy key = true
  · refine ⟨s, { initReport with status := "warning", message := some msgNoKey },
      by simp [scrapeBody, hkey, pureM], ?_, ?_⟩ <;> simp [initReport]
  · rcases resolveTargets_ok env urls s with ⟨s1, ts, hrt⟩
    by_cases hts : ts.isEmpty
    · refine ⟨s1, { initReport with status := "warning", message := some msgNoTargets, duration_seconds := env.duration }, ?_, ?_, ?_⟩
      · simp [scrapeBody, hkey, bindM, hrt, hts, pureM]
      · simp [initReport]
      · simp [initReport]
    · rcases scrapeLoop_ok env key tm tl ts 0 initReport s1 with
        ⟨s2, rl, hloop, hst, hmsg, herr, hsrc, hdur⟩
      refine ⟨s2, finalizeReport env.duration rl, ?_, ?_, ?_⟩
      · simp [scrapeBody, hkey, bindM, hrt, hts, hloop, pureM]
      · by_cases hf : rl.products_found = 0
        · simp [finalizeReport, hf]
        · simp only [finalizeReport, hf]
          have hfound : 1 ≤ rl.products_found := Nat.one_le_iff_ne_zero.mpr hf
          simp [hst, initReport, hf, hfound]
      · by_cases hf : rl.products_found = 0
        · simp [finalizeReport, hf]
        · simp only [finalizeReport, hf]
          simp [hst, initReport, hf, hsw]

/-- C1: for every input and every behaviour of the HTTP client and row
store, GOATScraper.scrape returns a run-report dict and never propagates an
exception to its caller; an exception raised while processing one target is
caught inside the target loop and processing continues with the next
target, so a single failing target never aborts the run. -/
theorem goat_scrape_never_raises :
    (∀ (σ : Type) (env : ScrapeEnv σ) (key : Option String) (tm : Bool) (tl : Nat)
       (urls : Option (List String)) (s : σ),
       ∃ s1 r, scrape env key tm tl urls s = (s1, Res.ok r)) ∧
    (∀ (σ : Type) (env : ScrapeEnv σ) (key : Option String) (tm : Bool) (tl : Nat)
       (t : String) (rest : List String) (i : Nat) (r : RunReport) (s s1 : σ) (e : String),
       (tm && decide (tl ≤ i)) = false →
       processTarget env key t s = (s1, Res.exn e) →
       scrapeLoop env key tm tl (t :: rest) i r s =
         scrapeLoop env key tm tl rest (i + 1) r s1) := by
  constructor
  · intro σ env key tm tl urls s
    rcases hb : scrapeBody env key tm tl urls s with ⟨s1, q⟩
    cases q with
    | ok r => exact ⟨s1, r, by simp [scrape, tryCatchM, hb]⟩
    | exn e =>
      exact ⟨s1, goatErrorReport e env.duration, by simp [scrape, tryCatchM, hb, pureM]⟩
  · intro σ env key tm tl t rest i r s s1 e hb hpt
    simp only [scrapeLoop, hb, Bool.false_eq_true, if_false]
    simp [bindM, tryCatchM, hpt, pureM, applyDelta_zero, applyDelta_zero']

/-- C2: when GOATScraper.scrape finishes, the report has status success
exactly when products_found is at least one and status warning exactly when
products_found is zero; status error arises only from the outermost
exception handler, whose report carries an error_message and zero counters. -/
theorem goat_scrape_status :
    (∀ (σ : Type) (env : ScrapeEnv σ) (key : Option String) (tm : Bool) (tl : Nat)
       (urls : Option (List String)) (s : σ),
       ∃ s1 r, scrape env key tm tl urls s = (s1, Res.ok r) ∧
         (r.status = "success" ↔ 1 ≤ r.products_found) ∧
         (r.status = "warning" ↔ r.products_found = 0) ∧
         (r.status = "success" ∨ r.status = "warning")) ∧
    (∀ (e : String) (d : Nat),
       (goatErrorReport e d).status = "error" ∧
       ((goatErrorReport e d).error_message).isSome = true ∧
       (goatErrorReport e d).products_found = 0 ∧
       (goatErrorReport e d).products_added = 0 ∧
       (goatErrorReport e d).products_updated = 0) := by
  constructor
  · intro σ env key tm tl urls s
    rcases scrapeBody_ok env key tm tl urls s with ⟨s1, r, hb, h1, h2⟩
    refine ⟨s1, r, by simp [scrape, tryCatchM, hb], h1, h2, ?_⟩
    by_cases hf : r.products_found = 0
    · exact Or.inr (h2.mpr hf)
    · exact Or.inl (h1.mpr (Nat.one_le_iff_ne_zero.mpr hf))
  · intro e d
    refine ⟨rfl, rfl, rfl, rfl, rfl⟩

/-- When the urls argument is falsy, target resolution falls back to the
persisted search terms. -/
lemma resolveTargets_falsy {σ : Type} (env : ScrapeEnv σ) (urls : Option (List String))
    (hu : urlsFalsy urls = true) : resolveTargets env urls = loadDbTargets env := by
  cases urls with
  | none => rfl
  | some us =>
    simp only [urlsFalsy] at hu
    simp [resolveTargets, hu]

/-- C3: if the GOAT API key is missing, or if no targets resolve because
the urls argument is empty or None and the scraper_search_terms table has
no usable rows, then GOATScraper.scrape terminates early with a warning
report, an explanatory message and zero counters, without raising. -/
theorem goat_scrape_config_warning :
    ∀ (σ : Type) (env : ScrapeEnv σ) (key : Option String) (tm : Bool) (tl : Nat)
      (urls : Option (List String)) (s : σ),
    (keyFalsy key = true ∨ (urlsFalsy urls = true ∧ resolvedDbTargets env s = [])) →
    ∃ s1 r, scrape env key tm tl urls s = (s1, Res.ok r) ∧
      r.status = "warning" ∧ (r.message).isSome = true ∧
      r.products_found = 0 ∧ r.products_added = 0 ∧ r.products_updated = 0 := by
  intro σ env key tm tl urls s hc
  by_cases hkey : keyFalsy key = true
  · refine ⟨s, { initReport with status := "warning", message := some msgNoKey }, ?_, rfl, rfl, rfl, rfl, rfl⟩
    simp [scrape, tryCatchM, scrapeBody, hkey, pureM]
  · rcases hc with h | ⟨hu, hresolved⟩
    · exact absurd h hkey
    · rcases loadDbTargets_eq env s with ⟨s1, hload⟩
      rw [hresolved] at hload
      refine ⟨s1, { initReport with status := "warning", message := some msgNoTargets, duration_seconds := env.duration }, ?_, rfl, rfl, rfl, rfl, rfl⟩
      simp [scrape, tryCatchM, scrapeBody, hkey, bindM, resolveTargets_falsy env urls hu,
        hload, pureM]

/-- C7: with test_mode true the target loop attempts at most test_limit
targets counted by loop index, skipped and failed ones included: running it
on the full target list equals running it on the list truncated at the
remaining allowance, regardless of per-target outcomes. -/
theorem goat_scrape_test_limit :
    ∀ (σ : Type) (env : ScrapeEnv σ) (key : Option String) (tl : Nat)
      (ts : List String) (i : Nat) (r : RunReport) (s : σ),
    scrapeLoop env key true tl ts i r s =
      scrapeLoop env key true tl (ts.take (tl - i)) i r s := by
  intro σ env key tl ts
  induction ts with
  | nil => intro i r s; simp
  | cons t rest ih =>
    intro i r s
    by_cases hi : tl ≤ i
    · rw [Nat.sub_eq_zero_of_le hi]
      simp [scrapeLoop, hi, pureM]
    · have harith : tl - i = (tl - (i + 1)) + 1 := by omega
      rw [harith, List.take_succ_cons]
      have hb : (true && decide (tl ≤ i)) = false := by simp [hi]
      rcases hpt : processTarget env key t s with ⟨s0, q⟩
      cases q with
      | ok d =>
        have lhs : scrapeLoop env key true tl (t :: rest) i r s =
            scrapeLoop env key true tl rest (i + 1) (applyDelta r d) s0 := by
          simp only [scrapeLoop, hb, Bool.false_eq_true, if_false]
          simp [bindM, tryCatchM, hpt]
        have rhs : scrapeLoop env key true tl (t :: List.take (tl - (i + 1)) rest) i r s =
            scrapeLoop env key true tl (List.take (tl - (i + 1)) rest) (i + 1) (applyDelta r d) s0 := by
          simp only [scrapeLoop, hb, Bool.false_eq_true, if_false]
          simp [bindM, tryCatchM, hpt]
        rw [lhs, rhs]
        exact ih (i + 1) (applyDelta r d) s0
      | exn e =>
        have lhs : scrapeLoop env key true tl (t :: rest) i r s =
            scrapeLoop env key true tl rest (i + 1) r s0 := by
          simp only [scrapeLoop, hb, Bool.false_eq_true, if_false]
          simp [bindM, tryCatchM, hpt, pureM, applyDelta_zero, applyDelta_zero']
        have rhs : scrapeLoop env key true tl (t :: List.take (tl - (i + 1)) rest) i r s =
            scrapeLoop env key true tl (List.take (tl - (i + 1)) rest) (i + 1) r s0 := by
          simp only [scrapeLoop, hb, Bool.false_eq_true, if_false]
          simp [bindM, tryCatchM, hpt, pureM, applyDelta_zero, applyDelta_zero']
        rw [lhs, rhs]
        exact ih (i + 1) r s0

/-- The work-id pattern matches nowhere in an empty text. -/
lemma workSegAt_nil (i : Nat) : workSegAt [] i = false := by
  unfold workSegAt
  simp only [List.drop_nil]
  decide

/-- Shifting the match offset past the head character. -/
lemma workSegAt_succ (c : Char) (cs : List Char) (i : Nat) :
    workSegAt (c :: cs) (i + 1) = workSegAt cs i := by
  have h6 : i + 1 + 6 = (i + 6) + 1 := by omega
  simp [workSegAt, h6, List.drop_succ_cons]

/-- The scan returns the digit group of the earliest match of the work-id
pattern. -/
lemma extractWorkIdAux_first :
    ∀ (l : List Char) (i : Nat), workSegAt l i = true →
      (∀ j, j < i → workSegAt l j = false) →
      extractWorkIdAux l = some (String.mk (leadingDigits (l.drop (i + 6)))) := by
  intro l
  induction l with
  | nil =>
    intro i h _
    rw [workSegAt_nil] at h
    exact absurd h (by decide)
  | cons c cs ih =>
    intro i h hj
    cases i with
    | zero =>
      have h' : (matchLit "/work/".toList (c :: cs) &&
          !(leadingDigits ((c :: cs).drop 6)).isEmpty) = true := h
      rw [show extractWorkIdAux (c :: cs) =
          (if matchLit "/work/".toList (c :: cs) &&
              !(leadingDigits ((c :: cs).drop 6)).isEmpty then
            some (String.mk (leadingDigits ((c :: cs).drop 6)))
          else extractWorkIdAux cs) from rfl, if_pos h']
    | succ i0 =>
      have h0 : workSegAt (c :: cs) 0 = false := hj 0 (Nat.succ_pos i0)
      have hcond : (matchLit "/work/".toList (c :: cs) &&
          !(leadingDigits ((c :: cs).drop 6)).isEmpty) = false := h0
      have hdrop : (c :: cs).drop (i0 + 1 + 6) = cs.drop (i0 + 6) := by
        rw [show i0 + 1 + 6 = (i0 + 6) + 1 from by omega, List.drop_succ_cons]
      rw [show extractWorkIdAux (c :: cs) =
          (if matchLit "/work/".toList (c :: cs) &&
              !(leadingDigits ((c :: cs).drop 6)).isEmpty then
            some (String.mk (leadingDigits ((c :: cs).drop 6)))
          else extractWorkIdAux cs) from rfl, hcond]
      simp only [Bool.false_eq_true, if_false, hdrop]
      refine ih i0 ?_ ?_
      · rwa [workSegAt_succ] at h
      · intro j hjlt
        have := hj (j + 1) (by omega)
        rwa [workSegAt_succ] at this
/-- The scan returns none when the work-id pattern matches at no offset of
the text. -/
lemma extractWorkIdAux_none :
    ∀ (l : List Char), (∀ i, i < l.length → workSegAt l i = false) →
      extractWorkIdAux l = none := by
  intro l
  induction l with
  | nil => intro _; rfl
  | cons c cs ih =>
    intro h
    have h0 : workSegAt (c :: cs) 0 = false := h 0 (by simp)
    have hcond : (matchLit "/work/".toList (c :: cs) &&
        !(leadingDigits ((c :: cs).drop 6)).isEmpty) = false := h0
    rw [show extractWorkIdAux (c :: cs) =
        (if matchLit "/work/".toList (c :: cs) &&
            !(leadingDigits ((c :: cs).drop 6)).isEmpty then
          some (String.mk (leadingDigits ((c :: cs).drop 6)))
        else extractWorkIdAux cs) from rfl, hcond]
    simp only [Bool.false_eq_true, if_false]
    refine ih ?_
    intro i hi
    have := h (i + 1) (by simpa using Nat.succ_lt_succ hi)
    rwa [workSegAt_succ] at this

/-- C6: GOATScraper._extract_work_id maps every URL shape addressing the
same work to the same identifier: on the two documented URL shapes it
returns 35356138, on every URL it returns the digit group of the earliest
slash-work-slash-digits segment, and on a URL with no such segment it
returns None. -/
theorem goat_extract_work_id_consistent :
    (extract_work_id "https://www.librarything.com/work/35356138/book/302275636" =
        some "35356138" ∧
     extract_work_id "https://www.librarything.com/work/35356138" = some "35356138") ∧
    (∀ (url : String) (i : Nat), workSegAt url.toList i = true →
       (∀ j, j < i → workSegAt url.toList j = false) →
       extract_work_id url = some (String.mk (leadingDigits (url.toList.drop (i + 6))))) ∧
    (∀ url : String, (∀ i, i < url.toList.length → workSegAt url.toList i = false) →
       extract_work_id url = none) :=
  ⟨⟨by decide, by decide⟩,
   fun url i h hj => extractWorkIdAux_first url.toList i h hj,
   fun url h => extractWorkIdAux_none url.toList h⟩

/-- Witness for the extraction theorem at a concrete URL whose earliest
work segment sits at offset two. -/
theorem goat_extract_work_id_consistent_witness :
    workSegAt "ab/work/7x".toList 2 = true ∧
    (∀ j, j < 2 → workSegAt "ab/work/7x".toList j = false) ∧
    extract_work_id "ab/work/7x" =
      some (String.mk (leadingDigits ("ab/work/7x".toList.drop (2 + 6)))) :=
  ⟨by decide, by decide,
   goat_extract_work_id_consistent.2.1 "ab/work/7x" 2 (by decide) (by decide)⟩

/-- C10: every record built by GOATScraper._create_product_dict carries
source GOAT, type Book and a non-null scraped_at timestamp, while
GOATScraper.get_source_name returns goat, so the stored source tag differs
from the declared source name only by letter case. -/
theorem goat_source_tag_case :
    ∀ (now : String) (wd : WorkData) (src : Option String),
      (create_product_dict now wd src).source = "GOAT" ∧
      (create_product_dict now wd src).type = "Book" ∧
      (create_product_dict now wd src).scraped_at = some now ∧
      get_source_name = "goat" ∧
      (create_product_dict now wd src).source ≠ get_source_name ∧
      ((create_product_dict now wd src).source).data.map Char.toLower = (get_source_name).data := by
  intro now wd src
  refine ⟨rfl, rfl, rfl, rfl, ?_, ?_⟩
  · show ("GOAT" : String) ≠ get_source_name
    decide
  · show ("GOAT" : String).data.map Char.toLower = (get_source_name).data
    decide

/-- A string with a false isEmpty flag is not the empty string. -/
lemma isEmpty_false_ne (s : String) (h : s.isEmpty = false) : s ≠ "" := by
  intro he
  subst he
  exact absurd h (by decide)

/-- The Python or of an optional string with a some fallback is never
None. -/
lemma pyOrOpt_some_ne_none (a : Option String) (b : String) : pyOrOpt a (some b) ≠ none := by
  cases a with
  | none => simp [pyOrOpt, optTruthy]
  | some s =>
    by_cases h : s.isEmpty
    · simp [pyOrOpt, optTruthy, h]
    · simp [pyOrOpt, optTruthy, h]

/-- Well-formed upstream payload carrying both an error element and a work
element with a non-empty title. -/
def errorAndWorkRoot : XMLElem :=
  .node "response" none [
    .node "error" none [ .node "message" (some "Work not found") [] ],
    .node "work" none [ .node "title" (some "The Curious Garden") [] ] ]

/-- C4 counterexample: a well-formed payload containing a work element with
a non-empty title for which the parser nevertheless returns None, because
GOATScraper._parse_xml_response checks for an error element before looking
at the work element. -/
theorem goat_parse_roundtrip_counterexample :
    findChild errorAndWorkRoot "work" =
      some (.node "work" none [ .node "title" (some "The Curious Garden") [] ]) ∧
    (pyStrip (findTextD
      (XMLElem.node "work" none [ .node "title" (some "The Curious Garden") [] ])
      "title" "")).isEmpty = false ∧
    parse_xml_response (some errorAndWorkRoot) "35356138" = none :=
  ⟨rfl, by decide, rfl⟩

/-- C4 (amended): for a well-formed payload with no error element whose
work element carries a non-empty title, GOATScraper._parse_xml_response
followed by _create_product_dict yields a canonical record whose name,
source, url and type fields are all populated; when the work element is
absent, or its title is empty or missing, the parser returns None, so no
partially-filled record is produced for that target. -/
theorem goat_parse_roundtrip :
    ∀ (root : XMLElem) (wid now : String) (src : Option String),
      (∀ w, findChild root "error" = none → findChild root "work" = some w →
        (pyStrip (findTextD w "title" "")).isEmpty = false →
        ∃ wd, parse_xml_response (some root) wid = some wd ∧
          (create_product_dict now wd src).name ≠ "" ∧
          (create_product_dict now wd src).source = "GOAT" ∧
          (create_product_dict now wd src).url ≠ none ∧
          (create_product_dict now wd src).type = "Book") ∧
      (findChild root "work" = none → parse_xml_response (some root) wid = none) ∧
      (∀ w, findChild root "work" = some w →
        (pyStrip (findTextD w "title" "")).isEmpty = true →
        parse_xml_response (some root) wid = none) := by
  intro root wid now src
  refine ⟨?_, ?_, ?_⟩
  · intro w herr hwork htitle
    simp only [parse_xml_response, herr, hwork, htitle, Bool.false_eq_true, if_false]
    refine ⟨_, rfl, ?_, rfl, ?_, rfl⟩
    · show pyStrip (findTextD w "title" "") ≠ ""
      exact isEmpty_false_ne _ htitle
    · exact pyOrOpt_some_ne_none src _
  · intro hwork
    cases herr : findChild root "error" with
    | some e => simp [parse_xml_response, herr]
    | none => simp [parse_xml_response, herr, hwork]
  · intro w hwork htitle
    cases herr : findChild root "error" with
    | some e => simp [parse_xml_response, herr]
    | none => simp [parse_xml_response, herr, hwork, htitle]

/-- Well-formed upstream payload with a minimal work element. -/
def minimalWorkRoot : XMLElem :=
  .node "response" none [ .node "work" none [ .node "title" (some "Minimal Book") [] ] ]

/-- Witness for the amended round-trip theorem on the minimal payload. -/
theorem goat_parse_roundtrip_witness :
    findChild minimalWorkRoot "error" = none ∧
    findChild minimalWorkRoot "work" =
      some (.node "work" none [ .node "title" (some "Minimal Book") [] ]) ∧
    (pyStrip (findTextD (XMLElem.node "work" none [ .node "title" (some "Minimal Book") [] ])
      "title" "")).isEmpty = false ∧
    (∃ wd, parse_xml_response (some minimalWorkRoot) "12345" = some wd ∧
      (create_product_dict "T0" wd none).name ≠ "" ∧
      (create_product_dict "T0" wd none).source = "GOAT" ∧
      (create_product_dict "T0" wd none).url ≠ none ∧
      (create_product_dict "T0" wd none).type = "Book") :=
  ⟨rfl, rfl, by decide,
   (goat_parse_roundtrip minimalWorkRoot "12345" "T0" none).1
     (.node "work" none [ .node "title" (some "Minimal Book") [] ]) rfl rfl (by decide)⟩

/-- The parser returns None whenever the root carries an error child. -/
lemma parse_error_none (root : XMLElem) (wid : String)
    (h : (findChild root "error").isSome = true) :
    parse_xml_response (some root) wid = none := by
  cases herr : findChild root "error" with
  | none => rw [herr] at h; exact absurd h (by decide)
  | some e => simp [parse_xml_response, herr]

/-- C8: when the row-store write fails for a target whose fetch and
normalization succeeded, the loop body still reports a products_found
increment of one and no products_added or products_updated increment, and
the bulk loop continues with the next target. -/
theorem goat_store_failure_still_counts :
    (∀ (σ : Type) (env : ScrapeEnv σ) (payload : Product) (purl : String) (s s1 : σ)
       (ex : Option Nat),
       env.productExists s purl = (s1, Res.ok ex) →
       (∀ pid, ex = some pid → (env.updateProduct s1 pid payload).2 = Res.ok false) →
       (ex = none → (env.createProduct s1 payload).2 = Res.ok false) →
       ∃ s2, persistTarget env payload purl s = (s2, Res.ok (1, 0, 0))) ∧
    (∀ (σ : Type) (env : ScrapeEnv σ) (key : Option String) (tm : Bool) (tl : Nat)
       (t : String) (rest : List String) (i : Nat) (r : RunReport) (s s1 : σ)
       (d : Nat × Nat × Nat),
       (tm && decide (tl ≤ i)) = false →
       processTarget env key t s = (s1, Res.ok d) →
       scrapeLoop env key tm tl (t :: rest) i r s =
         scrapeLoop env key tm tl rest (i + 1) (applyDelta r d) s1) := by
  constructor
  · intro σ env payload purl s s1 ex hex hup hcr
    cases ex with
    | some pid =>
      rcases hu : env.updateProduct s1 pid payload with ⟨s2, q⟩
      have : q = Res.ok false := by
        have := hup pid rfl
        rwa [hu] at this
      subst this
      refine ⟨s2, ?_⟩
      simp [persistTarget, bindM, liftRes, hex, hu, pureM]
    | none =>
      rcases hc : env.createProduct s1 payload with ⟨s2, q⟩
      have : q = Res.ok false := by
        have := hcr rfl
        rwa [hc] at this
      subst this
      refine ⟨s2, ?_⟩
      simp [persistTarget, bindM, liftRes, hex, hc, pureM]
  · intro σ env key tm tl t rest i r s s1 d hb hpt
    simp only [scrapeLoop, hb, Bool.false_eq_true, if_false]
    simp [bindM, tryCatchM, hpt]

/-- C9: an upstream response whose root contains an error element makes the
parser return None, hence _fetch_work_details returns None for that work,
and the bulk loop skips the target with zero counter increments. -/
theorem goat_error_response_skipped :
    (∀ (root : XMLElem) (wid : String), (findChild root "error").isSome = true →
       parse_xml_response (some root) wid = none) ∧
    (∀ (σ : Type) (env : ScrapeEnv σ) (k wid : String) (s s1 : σ) (code : Nat)
       (root : XMLElem),
       k.isEmpty = false →
       env.fetchResp s wid = (s1, Res.ok (code, some root)) →
       (findChild root "error").isSome = true →
       fetchWorkDetails env (some k) wid s = (s1, Res.ok none)) ∧
    (∀ (σ : Type) (env : ScrapeEnv σ) (key : Option String) (t wid : String) (s s1 : σ),
       targetWorkId t = some wid →
       fetchWorkDetails env key wid s = (s1, Res.ok none) →
       processTarget env key t s = (s1, Res.ok (0, 0, 0))) := by
  refine ⟨fun root wid h => parse_error_none root wid h, ?_, ?_⟩
  · intro σ env k wid s s1 code root hk hf herr
    have hp : parse_xml_response (some root) wid = none := parse_error_none root wid herr
    by_cases hc : code = 200
    · subst hc
      simp [fetchWorkDetails, tryCatchM, bindM, liftRes, keyFalsy, hk, hf, pureM, hp]
    · simp [fetchWorkDetails, tryCatchM, bindM, liftRes, keyFalsy, hk, hf, pureM, hc]
  · intro σ env key t wid s s1 htw hfd
    simp [processTarget, htw, bindM, hfd, pureM]

/-- Payload shaped like the upstream error response of the concrete
scenario. -/
def errorOnlyRoot : XMLElem :=
  .node "response" none [ .node "error" none [ .node "message" (some "Work not found") [] ] ]

/-- Environment whose client always serves the error-shaped response. -/
def envErrResp : ScrapeEnv Unit := {
  fetchResp := fun s _ => (s, Res.ok (200, some errorOnlyRoot)),
  loadTerms := fun s => (s, Res.ok []),
  productExists := fun s _ => (s, Res.ok none),
  createProduct := fun s _ => (s, Res.ok true),
  updateProduct := fun s _ _ => (s, Res.ok true),
  now := "T0",
  duration := 0 }

/-- Witness for the error-response theorem on the concrete error payload. -/
theorem goat_error_response_skipped_witness :
    (findChild errorOnlyRoot "error").isSome = true ∧
    targetWorkId "999" = some "999" ∧
    fetchWorkDetails envErrResp (some "k") "999" () = ((), Res.ok none) ∧
    processTarget envErrResp (some "k") "999" () = ((), Res.ok (0, 0, 0)) := by
  have h2 : fetchWorkDetails envErrResp (some "k") "999" () = ((), Res.ok none) :=
    goat_error_response_skipped.2.1 Unit envErrResp "k" "999" () () 200 errorOnlyRoot
      (by decide) rfl (by decide)
  exact ⟨by decide, rfl, h2,
    goat_error_response_skipped.2.2 Unit envErrResp (some "k") "999" "999" () () rfl h2⟩

/-- Environment whose row-store existence check raises. -/
def envStoreRaises : ScrapeEnv Unit := {
  fetchResp := fun s _ => (s, Res.ok (200, some minimalWorkRoot)),
  loadTerms := fun s => (s, Res.ok []),
  productExists := fun s _ => (s, Res.exn "db down"),
  createProduct := fun s _ => (s, Res.ok true),
  updateProduct := fun s _ _ => (s, Res.ok true),
  now := "T0",
  duration := 3 }

/-- Witness for the no-escape theorem: a raising iteration is caught and
the loop moves on to the remaining target. -/
theorem goat_scrape_never_raises_witness :
    ((false : Bool) && decide (5 ≤ 0)) = false ∧
    processTarget envStoreRaises (some "k") "12345" () = ((), Res.exn "db down") ∧
    scrapeLoop envStoreRaises (some "k") false 5 ["12345", "67"] 0 initReport () =
      scrapeLoop envStoreRaises (some "k") false 5 ["67"] 1 initReport () :=
  ⟨by decide, by decide,
   goat_scrape_never_raises.2 Unit envStoreRaises (some "k") false 5 "12345" ["67"] 0
     initReport () () "db down" (by decide) (by decide)⟩

/-- Environment with no persisted search terms. -/
def envNoTerms : ScrapeEnv Unit := {
  fetchResp := fun s _ => (s, Res.ok (200, some minimalWorkRoot)),
  loadTerms := fun s => (s, Res.ok []),
  productExists := fun s _ => (s, Res.ok none),
  createProduct := fun s _ => (s, Res.ok true),
  updateProduct := fun s _ _ => (s, Res.ok true),
  now := "T0",
  duration := 1 }

/-- Witness for the configuration-warning theorem with a configured key but
no targets. -/
theorem goat_scrape_config_warning_witness :
    (keyFalsy (some "k") = true ∨
      (urlsFalsy (none : Option (List String)) = true ∧
        resolvedDbTargets envNoTerms () = [])) ∧
    (∃ s1 r, scrape envNoTerms (some "k") false 5 none () = (s1, Res.ok r) ∧
      r.status = "warning" ∧ (r.message).isSome = true ∧
      r.products_found = 0 ∧ r.products_added = 0 ∧ r.products_updated = 0) :=
  ⟨Or.inr ⟨rfl, rfl⟩,
   goat_scrape_config_warning Unit envNoTerms (some "k") false 5 none () (Or.inr ⟨rfl, rfl⟩)⟩

/-- Environment whose row-store insert reports failure. -/
def envCreateFails : ScrapeEnv Unit := {
  fetchResp := fun s _ => (s, Res.ok (200, some minimalWorkRoot)),
  loadTerms := fun s => (s, Res.ok []),
  productExists := fun s _ => (s, Res.ok none),
  createProduct := fun s _ => (s, Res.ok false),
  updateProduct := fun s _ _ => (s, Res.ok true),
  now := "T0",
  duration := 0 }

/-- Record used by the store-failure witness. -/
def sampleProduct : Product := {
  name := "Minimal Book",
  description := none,
  source := "GOAT",
  url := some "u",
  image := none,
  type := "Book",
  external_id := some "12345",
  tags := [],
  scraped_at := some "T0",
  source_last_updated := none }

/-- Witness for the store-failure theorem: the insert fails yet the deltas
are one found, zero added, zero updated, and the loop continues. -/
theorem goat_store_failure_still_counts_witness :
    envCreateFails.productExists () "u" = ((), Res.ok none) ∧
    (∃ s2, persistTarget envCreateFails sampleProduct "u" () = (s2, Res.ok (1, 0, 0))) ∧
    processTarget envCreateFails (some "k") "12345" () = ((), Res.ok (1, 0, 0)) ∧
    scrapeLoop envCreateFails (some "k") false 5 ["12345"] 0 initReport () =
      scrapeLoop envCreateFails (some "k") false 5 [] 1 (applyDelta initReport (1, 0, 0)) () :=
  ⟨rfl,
   goat_store_failure_still_counts.1 Unit envCreateFails sampleProduct "u" () () none rfl
     (fun pid h => nomatch h) (fun _ => rfl),
   by decide,
   goat_store_failure_still_counts.2 Unit envCreateFails (some "k") false 5 "12345" [] 0
     initReport () () (1, 0, 0) (by decide) (by decide)⟩

/-- Sequencing after a computation known to return a value. -/
lemma bindM_ok {σ α β : Type} (m : M σ α) (f : α → M σ β) (s s1 : σ) (a : α)
    (h : m s = (s1, Res.ok a)) : bindM m f s = f a s1 := by
  simp [bindM, h]

/-- A string that is not empty has a false isEmpty flag. -/
lemma isEmpty_false_of_ne (s : String) (h : s ≠ "") : s.isEmpty = false := by
  cases hb : s.isEmpty with
  | false => rfl
  | true => exact absurd ((String.isEmpty_iff s).mp hb) h

/-- The rebuilt work URL is never the empty string. -/
lemma workUrl_ne_empty (wid : String) :
    ("https://www.librarything.com/work/" ++ wid) ≠ "" := by
  intro h
  have hlen := congrArg String.length h
  rw [String.length_append] at hlen
  have h34 : ("https://www.librarything.com/work/").length = 34 := by decide
  have h0 : ("" : String).length = 0 := rfl
  omega

/-- A string starting with the literal http is not empty. -/
lemma pyStartsWith_isEmpty_false (t : String) (h : pyStartsWith t "http" = true) :
    t.isEmpty = false := by
  cases hb : t.isEmpty with
  | false => rfl
  | true =>
    have ht : t = "" := (String.isEmpty_iff t).mp hb
    subst ht
    exact absurd h (by decide)

/-- Every parsed work record carries the rebuilt work URL. -/
lemma parse_url_eq (b : Option XMLElem) (wid : String) (wd : WorkData)
    (h : parse_xml_response b wid = some wd) :
    wd.url = "https://www.librarything.com/work/" ++ wid := by
  cases b with
  | none => exact absurd h (by simp [parse_xml_response])
  | some root =>
    simp only [parse_xml_response] at h
    split at h
    · exact absurd h (by simp)
    · split at h
      · exact absurd h (by simp)
      · split at h
        · exact absurd h (by simp)
        · injection h with hh
          subst hh
          rfl

/-- Under the truthiness rules of the source, the payload of a successful
target carries exactly the canonical url the loop computes for it. -/
lemma targetOutcome_url (respOf : String → Res (Nat × Option XMLElem)) (key : Option String)
    (now t url : String) (p : Product)
    (h : targetOutcome respOf key now t = some (url, p)) : p.url = some url := by
  unfold targetOutcome at h
  split at h
  · exact absurd h (by simp)
  · rename_i wid htw
    split at h
    · exact absurd h (by simp)
    · rename_i wd hfp
      simp only [Option.some.injEq, Prod.mk.injEq] at h
      obtain ⟨hurl, hp⟩ := h
      subst hp
      have hwurl : wd.url = "https://www.librarything.com/work/" ++ wid := by
        unfold fetchPure at hfp
        split at hfp
        · exact absurd hfp (by simp)
        · split at hfp
          · exact absurd hfp (by simp)
          · split at hfp
            · exact absurd hfp (by simp)
            · exact parse_url_eq _ wid wd hfp
      have hwne : wd.url.isEmpty = false := by
        rw [hwurl]; exact isEmpty_false_of_ne _ (workUrl_ne_empty wid)
      subst hurl
      show (create_product_dict now wd (targetSourceUrl t)).url =
        some (productUrl (create_product_dict now wd (targetSourceUrl t)) wid)
      unfold targetSourceUrl
      cases hps : pyStartsWith t "http" with
      | false =>
        have hcu : (create_product_dict now wd none).url = some wd.url := by
          simp [create_product_dict, pyOrOpt, optTruthy]
        simp only [Bool.false_eq_true, if_false, hcu, productUrl, hwne, if_false]
      | true =>
        have hte : t.isEmpty = false := pyStartsWith_isEmpty_false t hps
        have hcu : (create_product_dict now wd (some t)).url = some t := by
          simp [create_product_dict, pyOrOpt, optTruthy, hte]
        simp only [if_true, hcu, productUrl, hte, Bool.false_eq_true, if_false]

/-- Under the store environment the fetch step leaves the store untouched
and returns the pure fetch value. -/
lemma fetchWorkDetails_storeEnv (respOf : String → Res (Nat × Option XMLElem))
    (terms : List (Option String)) (now : String) (dur : Nat) (key : Option String)
    (wid : String) (st : Store) :
    fetchWorkDetails (storeEnv respOf terms now dur) key wid st =
      (st, Res.ok (fetchPure respOf key wid)) := by
  by_cases hk : keyFalsy key = true
  · simp [fetchWorkDetails, fetchPure, hk, tryCatchM, pureM]
  · cases hr : respOf wid with
    | exn e =>
      simp [fetchWorkDetails, fetchPure, hk, tryCatchM, bindM, liftRes, storeEnv, hr, pureM]
    | ok pr =>
      rcases pr with ⟨code, body⟩
      by_cases hc : code = 200
      · subst hc
        simp [fetchWorkDetails, fetchPure, hk, tryCatchM, bindM, liftRes, storeEnv, hr, pureM]
      · simp [fetchWorkDetails, fetchPure, hk, tryCatchM, bindM, liftRes, storeEnv, hr, pureM, hc]

/-- Projection of the clock from the store environment. -/
lemma storeEnv_now (respOf : String → Res (Nat × Option XMLElem)) (terms : List (Option String))
    (now : String) (dur : Nat) : (storeEnv respOf terms now dur).now = now := rfl

/-- Projection of the existence query from the store environment. -/
lemma storeEnv_productExists (respOf : String → Res (Nat × Option XMLElem))
    (terms : List (Option String)) (now : String) (dur : Nat) :
    (storeEnv respOf terms now dur).productExists =
      fun st url => (st, Res.ok (lookupByUrl st url)) := rfl

/-- Projection of the insert from the store environment. -/
lemma storeEnv_createProduct (respOf : String → Res (Nat × Option XMLElem))
    (terms : List (Option String)) (now : String) (dur : Nat) :
    (storeEnv respOf terms now dur).createProduct =
      fun st p => (insertRow st p, Res.ok true) := rfl

/-- Projection of the update from the store environment. -/
lemma storeEnv_updateProduct (respOf : String → Res (Nat × Option XMLElem))
    (terms : List (Option String)) (now : String) (dur : Nat) :
    (storeEnv respOf terms now dur).updateProduct =
      fun st pid p => (updateRow st pid p, Res.ok true) := rfl

/-- Under the store environment one loop-body run is determined by the pure
target outcome and the current store: a skip leaves the store unchanged
with zero deltas, a hit on an existing url updates that row, and a miss
inserts a new row. -/
lemma processTarget_storeEnv (respOf : String → Res (Nat × Option XMLElem))
    (terms : List (Option String)) (now : String) (dur : Nat) (key : Option String)
    (t : String) (st : Store) :
    processTarget (storeEnv respOf terms now dur) key t st =
      match targetOutcome respOf key now t with
      | none => (st, Res.ok (0, 0, 0))
      | some (url, p) =>
        match lookupByUrl st url with
        | some pid => (updateRow st pid p, Res.ok (1, 0, 1))
        | none => (insertRow st p, Res.ok (1, 1, 0)) := by
  have hfw := fun wid => fetchWorkDetails_storeEnv respOf terms now dur key wid st
  cases htw : targetWorkId t with
  | none => simp [processTarget, targetOutcome, htw, pureM]
  | some wid =>
    cases hfp : fetchPure respOf key wid with
    | none =>
      simp [processTarget, targetOutcome, htw, bindM, hfw wid, hfp, pureM, storeEnv_now]
    | some wd =>
      cases hlk : lookupByUrl st
          (productUrl (create_product_dict now wd (targetSourceUrl t)) wid) with
      | some pid =>
        simp [processTarget, targetOutcome, htw, bindM, hfw wid, hfp, persistTarget,
          liftRes, pureM, hlk, storeEnv_now, storeEnv_productExists, storeEnv_createProduct,
          storeEnv_updateProduct]
      | none =>
        simp [processTarget, targetOutcome, htw, bindM, hfw wid, hfp, persistTarget,
          liftRes, pureM, hlk, storeEnv_now, storeEnv_productExists, storeEnv_createProduct,
          storeEnv_updateProduct]

/-- The rewritten row of the update map keeps its identifier. -/
lemma updateRowF_id (pid : Nat) (p : Product) (r : StoreRow) :
    (if r.id == pid then { id := r.id, product := p } else r).id = r.id := by
  by_cases h : (r.id == pid) = true <;> simp [h]

/-- Row updates preserve store well-formedness. -/
lemma WF_updateRow (st : Store) (pid : Nat) (p : Product) (hwf : WFStore st) :
    WFStore (updateRow st pid p) := by
  constructor
  · refine List.pairwise_map.mpr (hwf.1.imp ?_)
    intro a b hab
    rw [updateRowF_id, updateRowF_id]
    exact hab
  · intro r hr
    rcases List.mem_map.mp hr with ⟨r0, hr0, rfl⟩
    rw [updateRowF_id]
    exact hwf.2 r0 hr0

/-- Row inserts preserve store well-formedness. -/
lemma WF_insertRow (st : Store) (p : Product) (hwf : WFStore st) :
    WFStore (insertRow st p) := by
  constructor
  · refine List.pairwise_append.mpr ⟨hwf.1, List.pairwise_singleton _ _, ?_⟩
    intro a ha b hb
    have hb1 : b = { id := st.nextId, product := p } := by simpa using hb
    subst hb1
    exact Nat.ne_of_lt (hwf.2 a ha)
  · intro r hr
    rcases List.mem_append.mp hr with h | h
    · exact Nat.lt_trans (hwf.2 r h) (Nat.lt_succ_self _)
    · have hr1 : r = { id := st.nextId, product := p } := by simpa using h
      subst hr1
      exact Nat.lt_succ_self _

/-- Inserting a row preserves every url already present. -/
lemma hasUrl_insertRow (st : Store) (p : Product) (u : String) (h : hasUrl st u) :
    hasUrl (insertRow st p) u := by
  obtain ⟨r, hr, hu⟩ := h
  exact ⟨r, List.mem_append.mpr (Or.inl hr), hu⟩

/-- Inserting a row makes its url present. -/
lemma hasUrl_insertRow_self (st : Store) (p : Product) (u : String) (hp : p.url = some u) :
    hasUrl (insertRow st p) u :=
  ⟨{ id := st.nextId, product := p }, List.mem_append.mpr (Or.inr (by simp)), hp⟩

/-- Updating the row matched by a url with a payload carrying that same url
preserves every url present in a well-formed store. -/
lemma hasUrl_updateRow (st : Store) (pid : Nat) (p : Product) (url u : String)
    (hwf : WFStore st) (hlk : lookupByUrl st url = some pid) (hp : p.url = some url)
    (h : hasUrl st u) : hasUrl (updateRow st pid p) u := by
  obtain ⟨r, hr, hu⟩ := h
  unfold lookupByUrl at hlk
  rcases hf : st.rows.find? (fun r => r.product.url == some url) with _ | r0
  · rw [hf] at hlk; exact absurd hlk (by simp)
  · rw [hf] at hlk
    have hlk1 : r0.id = pid := by simpa using hlk
    have hr0mem : r0 ∈ st.rows := List.mem_of_find?_eq_some hf
    have hr0url : r0.product.url = some url := by simpa using List.find?_some hf
    by_cases hid : r.id = pid
    · have hreq : r = r0 := by
        by_contra hne
        have hsym : Symmetric (fun a b : StoreRow => a.id ≠ b.id) :=
          fun a b hab => fun heq => hab heq.symm
        exact (hwf.1.forall hsym hr hr0mem hne) (hid.trans hlk1.symm)
      subst hreq
      have huu : u = url := by
        rw [hu] at hr0url
        exact Option.some.inj hr0url
      refine ⟨{ id := r.id, product := p }, ?_, by rw [hp, huu]⟩
      refine List.mem_map.mpr ⟨r, hr, ?_⟩
      simp [hid]
    · refine ⟨r, ?_, hu⟩
      refine List.mem_map.mpr ⟨r, hr, ?_⟩
      simp [hid]

/-- Row updates keep the number of rows. -/
lemma updateRow_length (st : Store) (pid : Nat) (p : Product) :
    (updateRow st pid p).rows.length = st.rows.length := by
  simp [updateRow]

/-- A present url is found by the existence lookup. -/
lemma lookupByUrl_isSome_of_hasUrl (st : Store) (u : String) (h : hasUrl st u) :
    ∃ pid, lookupByUrl st u = some pid := by
  obtain ⟨r, hr, hu⟩ := h
  have hs : (st.rows.find? (fun r => r.product.url == some u)).isSome := by
    rw [List.find?_isSome]
    exact ⟨r, hr, by simp [hu]⟩
  rcases Option.isSome_iff_exists.mp hs with ⟨r0, hr0⟩
  exact ⟨r0.id, by simp [lookupByUrl, hr0]⟩

/-- Projection of the measured duration from the store environment. -/
lemma storeEnv_duration (respOf : String → Res (Nat × Option XMLElem))
    (terms : List (Option String)) (now : String) (dur : Nat) :
    (storeEnv respOf terms now dur).duration = dur := rfl

/-- A successful lookup means the url is present. -/
lemma hasUrl_of_lookup (st : Store) (u : String) (pid : Nat)
    (h : lookupByUrl st u = some pid) : hasUrl st u := by
  unfold lookupByUrl at h
  rcases hf : st.rows.find? (fun r => r.product.url == some u) with _ | r0
  · rw [hf] at h; exact absurd h (by simp)
  · exact ⟨r0, List.mem_of_find?_eq_some hf, by simpa using List.find?_some hf⟩

/-- A skipped head target does not add to the success count. -/
lemma countSuccessful_cons_none (respOf : String → Res (Nat × Option XMLElem))
    (key : Option String) (now t : String) (rest : List String)
    (hto : targetOutcome respOf key now t = none) :
    countSuccessful respOf key now (t :: rest) = countSuccessful respOf key now rest := by
  simp [countSuccessful, List.filter_cons, hto]

/-- A successful head target adds one to the success count. -/
lemma countSuccessful_cons_some (respOf : String → Res (Nat × Option XMLElem))
    (key : Option String) (now t : String) (rest : List String) (x : String × Product)
    (hto : targetOutcome respOf key now t = some x) :
    countSuccessful respOf key now (t :: rest) = countSuccessful respOf key now rest + 1 := by
  simp [countSuccessful, List.filter_cons, hto]

/-- Composition of two counter deltas. -/
lemma applyDelta_add (r : RunReport) (a b c d e f : Nat) :
    applyDelta (applyDelta r (a, b, c)) (d, e, f) = applyDelta r (a + d, b + e, c + f) := by
  simp [applyDelta, Nat.add_assoc]

/-- Run of the loop over a well-formed store: the loop never raises, keeps
the store well formed, never loses a present url, and ends with the
canonical url of every successful target present. -/
lemma storeLoop_post (respOf : String → Res (Nat × Option XMLElem))
    (terms : List (Option String)) (now : String) (dur : Nat) (key : Option String) (tl : Nat) :
    ∀ (ts : List String) (i : Nat) (r : RunReport) (st : Store), WFStore st →
    ∃ st1 r1, scrapeLoop (storeEnv respOf terms now dur) key false tl ts i r st =
        (st1, Res.ok r1) ∧
      WFStore st1 ∧
      (∀ u, hasUrl st u → hasUrl st1 u) ∧
      (∀ t ∈ ts, ∀ url p, targetOutcome respOf key now t = some (url, p) → hasUrl st1 url) := by
  intro ts
  induction ts with
  | nil =>
    intro i r st hwf
    exact ⟨st, r, rfl, hwf, fun u h => h, by simp⟩
  | cons t rest ih =>
    intro i r st hwf
    have hb : (false && decide (tl ≤ i)) = false := by simp
    have hpt := processTarget_storeEnv respOf terms now dur key t st
    cases hto : targetOutcome respOf key now t with
    | none =>
      rw [hto] at hpt
      rcases ih (i + 1) (applyDelta r (0, 0, 0)) st hwf with
        ⟨st1, r1, hloop, hwf1, hmono, hpost⟩
      refine ⟨st1, r1, ?_, hwf1, hmono, ?_⟩
      · simp only [scrapeLoop, hb, Bool.false_eq_true, if_false]
        rw [bindM_ok _ _ _ _ _ (show tryCatchM (processTarget (storeEnv respOf terms now dur) key t)
            (fun _ => pureM (0, 0, 0)) st = (st, Res.ok (0, 0, 0)) from by simp [tryCatchM, hpt])]
        exact hloop
      · intro t1 ht1 url p hop
        rcases List.mem_cons.mp ht1 with rfl | hmem
        · rw [hop] at hto; exact absurd hto (by simp)
        · exact hpost t1 hmem url p hop
    | some pr =>
      rcases pr with ⟨url, p⟩
      rw [hto] at hpt
      have hpt1 : processTarget (storeEnv respOf terms now dur) key t st =
          (match lookupByUrl st url with
          | some pid => (updateRow st pid p, Res.ok (1, 0, 1))
          | none => (insertRow st p, Res.ok (1, 1, 0))) := by rw [hpt]
      have hpu : p.url = some url := targetOutcome_url respOf key now t url p hto
      cases hlk : lookupByUrl st url with
      | some pid =>
        rw [hlk] at hpt1
        have hwfu := WF_updateRow st pid p hwf
        rcases ih (i + 1) (applyDelta r (1, 0, 1)) (updateRow st pid p) hwfu with
          ⟨st1, r1, hloop, hwf1, hmono, hpost⟩
        refine ⟨st1, r1, ?_, hwf1, ?_, ?_⟩
        · simp only [scrapeLoop, hb, Bool.false_eq_true, if_false]
          rw [bindM_ok _ _ _ _ _ (show tryCatchM (processTarget (storeEnv respOf terms now dur) key t)
              (fun _ => pureM (0, 0, 0)) st = (updateRow st pid p, Res.ok (1, 0, 1)) from by
                simp [tryCatchM, hpt1])]
          exact hloop
        · intro u hu
          exact hmono u (hasUrl_updateRow st pid p url u hwf hlk hpu hu)
        · intro t1 ht1 url1 p1 hop
          rcases List.mem_cons.mp ht1 with rfl | hmem
          · have hinj := hop.symm.trans hto
            simp only [Option.some.injEq, Prod.mk.injEq] at hinj
            rw [hinj.1]
            refine hmono url (hasUrl_updateRow st pid p url url hwf hlk hpu ?_)
            exact hasUrl_of_lookup st url pid hlk
          · exact hpost t1 hmem url1 p1 hop
      | none =>
        rw [hlk] at hpt1
        have hwfi := WF_insertRow st p hwf
        rcases ih (i + 1) (applyDelta r (1, 1, 0)) (insertRow st p) hwfi with
          ⟨st1, r1, hloop, hwf1, hmono, hpost⟩
        refine ⟨st1, r1, ?_, hwf1, ?_, ?_⟩
        · simp only [scrapeLoop, hb, Bool.false_eq_true, if_false]
          rw [bindM_ok _ _ _ _ _ (show tryCatchM (processTarget (storeEnv respOf terms now dur) key t)
              (fun _ => pureM (0, 0, 0)) st = (insertRow st p, Res.ok (1, 1, 0)) from by
                simp [tryCatchM, hpt1])]
          exact hloop
        · intro u hu
          exact hmono u (hasUrl_insertRow st p u hu)
        · intro t1 ht1 url1 p1 hop
          rcases List.mem_cons.mp ht1 with rfl | hmem
          · have hinj := hop.symm.trans hto
            simp only [Option.some.injEq, Prod.mk.injEq] at hinj
            rw [hinj.1]
            exact hmono url (hasUrl_insertRow_self st p url hpu)
          · exact hpost t1 hmem url1 p1 hop

/-- Run of the loop over a well-formed store already holding the canonical
url of every successful target: every successful target takes the update
branch, so the found and updated counters each grow by the success count,
the added counter does not grow, and no row is inserted. -/
lemma storeLoop_count (respOf : String → Res (Nat × Option XMLElem))
    (terms : List (Option String)) (now : String) (dur : Nat) (key : Option String) (tl : Nat) :
    ∀ (ts : List String) (i : Nat) (r : RunReport) (st : Store), WFStore st →
    (∀ t ∈ ts, ∀ url p, targetOutcome respOf key now t = some (url, p) → hasUrl st url) →
    ∃ st1, scrapeLoop (storeEnv respOf terms now dur) key false tl ts i r st =
        (st1, Res.ok (applyDelta r
          (countSuccessful respOf key now ts, 0, countSuccessful respOf key now ts))) ∧
      st1.rows.length = st.rows.length := by
  intro ts
  induction ts with
  | nil =>
    intro i r st hwf hurls
    refine ⟨st, ?_, rfl⟩
    show (st, Res.ok r) = _
    rw [show countSuccessful respOf key now [] = 0 from rfl, applyDelta_zero]
  | cons t rest ih =>
    intro i r st hwf hurls
    have hb : (false && decide (tl ≤ i)) = false := by simp
    have hpt := processTarget_storeEnv respOf terms now dur key t st
    cases hto : targetOutcome respOf key now t with
    | none =>
      rw [hto] at hpt
      rcases ih (i + 1) (applyDelta r (0, 0, 0)) st hwf
          (fun t1 h1 => hurls t1 (List.mem_cons_of_mem t h1)) with ⟨st1, hloop, hlen⟩
      refine ⟨st1, ?_, hlen⟩
      simp only [scrapeLoop, hb, Bool.false_eq_true, if_false]
      rw [bindM_ok _ _ _ _ _ (show tryCatchM (processTarget (storeEnv respOf terms now dur) key t)
          (fun _ => pureM (0, 0, 0)) st = (st, Res.ok (0, 0, 0)) from by simp [tryCatchM, hpt])]
      rw [hloop, applyDelta_zero, countSuccessful_cons_none respOf key now t rest hto]
    | some pr =>
      rcases pr with ⟨url, p⟩
      rw [hto] at hpt
      have hpt1 : processTarget (storeEnv respOf terms now dur) key t st =
          (match lookupByUrl st url with
          | some pid => (updateRow st pid p, Res.ok (1, 0, 1))
          | none => (insertRow st p, Res.ok (1, 1, 0))) := by rw [hpt]
      have hpu : p.url = some url := targetOutcome_url respOf key now t url p hto
      have hpres : hasUrl st url := hurls t (List.mem_cons_self t rest) url p hto
      rcases lookupByUrl_isSome_of_hasUrl st url hpres with ⟨pid, hlk⟩
      rw [hlk] at hpt1
      have hwfu := WF_updateRow st pid p hwf
      rcases ih (i + 1) (applyDelta r (1, 0, 1)) (updateRow st pid p) hwfu
          (fun t1 h1 url1 p1 hop =>
            hasUrl_updateRow st pid p url url1 hwf hlk hpu
              (hurls t1 (List.mem_cons_of_mem t h1) url1 p1 hop)) with ⟨st1, hloop, hlen⟩
      refine ⟨st1, ?_, by rw [hlen, updateRow_length]⟩
      simp only [scrapeLoop, hb, Bool.false_eq_true, if_false]
      rw [bindM_ok _ _ _ _ _ (show tryCatchM (processTarget (storeEnv respOf terms now dur) key t)
          (fun _ => pureM (0, 0, 0)) st = (updateRow st pid p, Res.ok (1, 0, 1)) from by
            simp [tryCatchM, hpt1])]
      rw [hloop, applyDelta_add, countSuccessful_cons_some respOf key now t rest (url, p) hto]
      rw [show (1 + countSuccessful respOf key now rest, 0 + 0,
          1 + countSuccessful respOf key now rest) =
        (countSuccessful respOf key now rest + 1, 0,
          countSuccessful respOf key now rest + 1) from by rw [Nat.add_comm 1, Nat.add_zero]]

/-- With a configured key and a non-empty explicit target list, scrape is
the finalization of the loop run. -/
lemma scrape_loop_eq {σ : Type} (env : ScrapeEnv σ) (key : Option String) (tm : Bool)
    (tl : Nat) (ts : List String) (s s1 : σ) (rl : RunReport)
    (hkey : keyFalsy key = false) (hts : ts ≠ [])
    (hloop : scrapeLoop env key tm tl ts 0 initReport s = (s1, Res.ok rl)) :
    scrape env key tm tl (some ts) s = (s1, Res.ok (finalizeReport env.duration rl)) := by
  have hempty : ts.isEmpty = false := by
    cases ts with
    | nil => exact absurd rfl hts
    | cons a l => rfl
  simp [scrape, tryCatchM, scrapeBody, hkey, bindM, resolveTargets, hempty, pureM, hloop]

/-- Finalization touches only status, message and duration, never the
counters. -/
lemma finalizeReport_counters (dur : Nat) (r : RunReport) :
    (finalizeReport dur r).products_found = r.products_found ∧
    (finalizeReport dur r).products_added = r.products_added ∧
    (finalizeReport dur r).products_updated = r.products_updated := by
  by_cases h : r.products_found = 0 <;> simp [finalizeReport, h]

/-- C5: running GOATScraper.scrape twice with the same target list over the
spec-modelled row store, against unchanged upstream responses, makes the
second run report zero products_added and products_updated equal to the
number of successfully fetched targets: the existence check by canonical
url finds the row written by the first run, every successful target takes
the update branch, and the second run inserts no row. -/
theorem goat_scrape_idempotent :
    ∀ (respOf : String → Res (Nat × Option XMLElem)) (terms : List (Option String))
      (now : String) (dur : Nat) (key : Option String) (tl : Nat) (ts : List String),
    keyFalsy key = false → ts ≠ [] → (successfulUrls respOf key now ts).Nodup →
    ∃ st1 r1 st2 r2,
      scrape (storeEnv respOf terms now dur) key false tl (some ts) emptyStore =
        (st1, Res.ok r1) ∧
      scrape (storeEnv respOf terms now dur) key false tl (some ts) st1 =
        (st2, Res.ok r2) ∧
      r2.products_added = 0 ∧
      r2.products_updated = countSuccessful respOf key now ts ∧
      r2.products_found = countSuccessful respOf key now ts ∧
      st2.rows.length = st1.rows.length := by
  intro respOf terms now dur key tl ts hkey hts hnodup
  have hwf0 : WFStore emptyStore := ⟨List.Pairwise.nil, by simp [emptyStore]⟩
  rcases storeLoop_post respOf terms now dur key tl ts 0 initReport emptyStore hwf0 with
    ⟨st1, rl1, hloop1, hwf1, hmono1, hpost1⟩
  rcases storeLoop_count respOf terms now dur key tl ts 0 initReport st1 hwf1 hpost1 with
    ⟨st2, hloop2, hlen⟩
  have h1 := scrape_loop_eq (storeEnv respOf terms now dur) key false tl ts emptyStore st1
    rl1 hkey hts hloop1
  have h2 := scrape_loop_eq (storeEnv respOf terms now dur) key false tl ts st1 st2 _
    hkey hts hloop2
  rw [storeEnv_duration] at h1 h2
  refine ⟨st1, _, st2, _, h1, h2, ?_, ?_, ?_, hlen⟩
  · rw [(finalizeReport_counters dur _).2.1]
    simp [applyDelta, initReport]
  · rw [(finalizeReport_counters dur _).2.2]
    simp [applyDelta, initReport]
  · rw [(finalizeReport_counters dur _).1]
    simp [applyDelta, initReport]

/-- Upstream behaviour for the idempotence witness: every work id resolves
to the minimal payload. -/
def respOfMinimal : String → Res (Nat × Option XMLElem) :=
  fun _ => Res.ok (200, some minimalWorkRoot)

/-- Witness for the idempotence theorem on one concrete work-id target. -/
theorem goat_scrape_idempotent_witness :
    keyFalsy (some "k") = false ∧
    (["12345"] : List String) ≠ [] ∧
    (successfulUrls respOfMinimal (some "k") "T0" ["12345"]).Nodup ∧
    (∃ st1 r1 st2 r2,
      scrape (storeEnv respOfMinimal [] "T0" 7) (some "k") false 5 (some ["12345"])
        emptyStore = (st1, Res.ok r1) ∧
      scrape (storeEnv respOfMinimal [] "T0" 7) (some "k") false 5 (some ["12345"]) st1 =
        (st2, Res.ok r2) ∧
      r2.products_added = 0 ∧
      r2.products_updated = countSuccessful respOfMinimal (some "k") "T0" ["12345"] ∧
      r2.products_found = countSuccessful respOfMinimal (some "k") "T0" ["12345"] ∧
      st2.rows.length = st1.rows.length) :=
  ⟨by decide, by decide, by decide,
   goat_scrape_idempotent respOfMinimal [] "T0" 7 (some "k") 5 ["12345"]
     (by decide) (by decide) (by decide)⟩
